import Mathlib

/-!
Verification development for the UEA table-tennis matchup system
(source: TTMatcher.py, a Flask service with an in-memory session scheduler
and a CSV-backed roster).

The embedding below translates the Python source shallowly:

* the CSV roster is a list of Player records (one per CSV row, in file order);
* the module-level session_data dictionary is the SessionData structure;
* Python dicts keyed by player id are association lists in insertion order
  (dictionary assignment keeps the position of an existing key, otherwise
  appends at the end, exactly like CPython dicts);
* player ids are the numeric strings the code generates, modelled as Nat;
* elo ratings are stored as integers (the code stores round(...) results);
* the floating-point ELO computation is modelled over the reals, and
  Python round (round half to even) is modelled by pyRound;
* list.sort(key=..., reverse=True) is a stable descending sort, modelled by
  insertion sort with the relation "elo of the left argument is at least the
  elo of the right argument" (Mathlib's List.insertionSort is stable and
  agrees with any stable sort, hence with CPython's);
* each HTTP handler becomes a function from World to World (plus an outcome
  where the handler can answer with an error status); a KeyError escaping a
  handler (possible in record_result) is modelled by the crash outcomes,
  with exactly the partial mutation the Python code performs before raising.
-/

namespace TTMatcher

/-- A roster record: one row of players.csv / one player dict in the code. -/
structure Player where
  id : Nat
  name : String
  elo : Int
  wins : Nat
  losses : Nat
  is_playing : Bool
deriving DecidableEq

/-- An active match as built by fill_empty_tables. -/
structure TTMatch where
  id : String
  player1Id : Nat
  player2Id : Nat
deriving DecidableEq

/-- The module-level session_data dictionary. -/
structure SessionData where
  is_active : Bool
  players : List (Nat × Player)
  waiting_ids : List Nat
  active_matches : List TTMatch
  max_tables : Int
deriving DecidableEq

/-- Whole-program state: the persisted CSV roster plus the in-memory session. -/
structure World where
  roster : List Player
  session : SessionData
deriving DecidableEq

/-- Python str.strip() on a request name (whitespace stripped on both ends). -/
def pyStrip (s : String) : String :=
  String.mk (((s.data.dropWhile Char.isWhitespace).reverse.dropWhile Char.isWhitespace).reverse)

/-- Dictionary lookup d[k] as an Option (Python raises KeyError when absent). -/
def dictFind (l : List (Nat × Player)) (k : Nat) : Option Player :=
  (l.find? (fun e => e.1 == k)).map (fun e => e.2)

/-- Dictionary assignment d[k] = v: replace the value at an existing key in
place (keys are unique in every dict the program builds), otherwise append
the new binding at the end (CPython dict insertion order). -/
def dictInsert : List (Nat × Player) → Nat → Player → List (Nat × Player)
  | [], k, v => [(k, v)]
  | e :: t, k, v => if e.1 == k then (k, v) :: t else e :: dictInsert t k v

/-- Dictionary deletion del d[k] (guarded by a membership test in the code,
so deleting an absent key is a no-op here). -/
def eraseKey (l : List (Nat × Player)) (k : Nat) : List (Nat × Player) :=
  l.filter (fun e => !(e.1 == k))

/-- In-place mutation of the first roster entry with the given id, as done by
the for/break loop in toggle_player_status and by next(...) in record_result. -/
def updateFirst (f : Player → Player) (pid : Nat) : List Player → List Player
  | [] => []
  | p :: ps => if p.id == pid then f p :: ps else p :: updateFirst f pid ps

/-- All player ids occupying active matches, in match order. -/
def matchIds : List TTMatch → List Nat
  | [] => []
  | m :: ms => m.player1Id :: m.player2Id :: matchIds ms

/-- Every id holding a seat in the session: the waiting queue followed by the
participants of the active matches. -/
def sessionIds (s : SessionData) : List Nat :=
  s.waiting_ids ++ matchIds s.active_matches

/-- The sort key session_data['players'][pid]['elo'] used by the queue sorts.
Totalised with 0 for an absent id (the Python lookup would raise; no reachable
sort in the claims below ever looks up an absent id). -/
def eloKey (players : List (Nat × Player)) (pid : Nat) : Int :=
  ((dictFind players pid).map (fun p => p.elo)).getD 0

/-- ids.sort(key=lambda pid: players[pid]['elo'], reverse=True): a stable
descending sort by current session elo. -/
def sortByEloDesc (players : List (Nat × Player)) (l : List Nat) : List Nat :=
  l.insertionSort (fun a b => eloKey players b ≤ eloKey players a)

/-- get_next_player_id: max existing id + 1, or 1 for an empty roster
(the fold over an empty roster yields 0, so the formula also returns 1 there,
matching the explicit empty-roster branch of the Python code). -/
def get_next_player_id (players : List Player) : Nat :=
  (players.foldr (fun p acc => Nat.max p.id acc) 0) + 1

/-- The match dictionary literal built by fill_empty_tables. -/
def mkTTMatch (p1 p2 : Nat) : TTMatch :=
  { id := "match-" ++ toString p1 ++ "-" ++ toString p2, player1Id := p1, player2Id := p2 }

/-- STARTING_ELO constant. -/
def STARTING_ELO : Int := 1000

/-- The while loop of fill_empty_tables: while there is a free table and at
least two waiting players, pop the two front ids and append a new match. -/
def fill_aux (max_tables : Int) : List Nat → List TTMatch → List Nat × List TTMatch
  | p1 :: p2 :: rest, ms =>
    if (ms.length : Int) < max_tables then
      fill_aux max_tables rest (ms ++ [mkTTMatch p1 p2])
    else (p1 :: p2 :: rest, ms)
  | ws, ms => (ws, ms)

/-- fill_empty_tables acting on the session state. -/
def fill_empty_tables (s : SessionData) : SessionData :=
  let r := fill_aux s.max_tables s.waiting_ids s.active_matches
  { s with waiting_ids := r.1, active_matches := r.2 }

/-- K_BASE constant of the ELO computation. -/
def K_BASE : ℝ := 32

/-- K = K_BASE * k_multiplier; the multiplier is 1.5 exactly for a 2-0 shutout. -/
noncomputable def k_factor (winner_score loser_score : Int) : ℝ :=
  K_BASE * (if winner_score = 2 ∧ loser_score = 0 then 1.5 else 1.0)

/-- prob_winner = 1 / (1 + 10 ** ((loser_rating - winner_rating) / 400)). -/
noncomputable def prob_winner (winner_rating loser_rating : ℝ) : ℝ :=
  1 / (1 + (10 : ℝ) ^ ((loser_rating - winner_rating) / 400))

/-- rating_change = K * (1 - prob_winner). -/
noncomputable def rating_change (winner_rating loser_rating : ℝ) (winner_score loser_score : Int) : ℝ :=
  k_factor winner_score loser_score * (1 - prob_winner winner_rating loser_rating)

/-- calculate_new_ratings: returns the unrounded new ratings as floats. -/
noncomputable def calculate_new_ratings (winner_rating loser_rating : ℝ)
    (winner_score loser_score : Int) : ℝ × ℝ :=
  (winner_rating + rating_change winner_rating loser_rating winner_score loser_score,
   loser_rating - rating_change winner_rating loser_rating winner_score loser_score)

/-- Python round(x) with no digits argument: round half to even, as an Int. -/
noncomputable def pyRound (x : ℝ) : ℤ :=
  if x - ⌊x⌋ < 1/2 then ⌊x⌋
  else if 1/2 < x - ⌊x⌋ then ⌊x⌋ + 1
  else if Even ⌊x⌋ then ⌊x⌋ else ⌊x⌋ + 1

/-- The integer rating update actually applied by record_result:
calculate_new_ratings on the stored integer ratings, then round each side. -/
noncomputable def eloEngine (winner_rating loser_rating winner_score loser_score : Int) : Int × Int :=
  let r := calculate_new_ratings (winner_rating : ℝ) (loser_rating : ℝ) winner_score loser_score
  (pyRound r.1, pyRound r.2)

/-- add_player handler. A blank name is rejected with no state change.
Otherwise the new player is appended to the roster and, when a session is
active, admitted into the session and the tables refilled. -/
def add_player (name : String) (w : World) : World :=
  if pyStrip name == "" then w
  else
    let players := w.roster
    let new_player : Player :=
      { id := get_next_player_id players, name := pyStrip name, elo := STARTING_ELO,
        wins := 0, losses := 0, is_playing := true }
    let roster2 := players ++ [new_player]
    if w.session.is_active then
      let pmap := dictInsert w.session.players new_player.id new_player
      let waiting := sortByEloDesc pmap (w.session.waiting_ids ++ [new_player.id])
      let s1 : SessionData :=
        { w.session with players := pmap, waiting_ids := waiting }
      { roster := roster2, session := fill_empty_tables s1 }
    else { roster := roster2, session := w.session }

/-- delete_player handler: drops the id from the CSV roster only; the session
state is never touched (the 404 branch leaves the same state). -/
def delete_player (pid : Nat) (w : World) : World :=
  { w with roster := w.roster.filter (fun p => !(p.id == pid)) }

/-- toggle_player_status handler: flip is_playing of the first roster entry
with the given id; when a session is active and the player just became
inactive, remove the id from the session players and the waiting queue
(active matches are left untouched). -/
def toggle_player_status (pid : Nat) (w : World) : World :=
  match w.roster.find? (fun p => p.id == pid) with
  | none => w
  | some p =>
    -- after the flip the stored value is !p.is_playing, and the code tests
    -- "session active and not p['is_playing']", i.e. the original value
    if w.session.is_active && p.is_playing then
      { roster := updateFirst (fun q => { q with is_playing := !q.is_playing }) pid w.roster,
        session := { w.session with
          players := eraseKey w.session.players pid,
          waiting_ids := w.session.waiting_ids.filter (fun x => !(x == pid)) } }
    else
      { roster := updateFirst (fun q => { q with is_playing := !q.is_playing }) pid w.roster,
        session := w.session }

/-- start_session handler. Note that max_tables is assigned from the request
before the player-count check, so a rejected start still overwrites it.
The Bool is true exactly when the start succeeded. -/
def start_session (tableCount : Int) (w : World) : World × Bool :=
  let s0 := { w.session with max_tables := tableCount }
  let players_for_session := w.roster.filter (fun p => p.is_playing)
  if players_for_session.length < 2 then
    ({ w with session := s0 }, false)
  else
    let pmap := players_for_session.foldl (fun acc p => dictInsert acc p.id p) []
    let waiting := sortByEloDesc pmap (players_for_session.map (fun p => p.id))
    let s1 : SessionData :=
      { is_active := true, players := pmap, waiting_ids := waiting,
        active_matches := [], max_tables := tableCount }
    ({ w with session := fill_empty_tables s1 }, true)

/-- end_session handler: full reset of the session fields. -/
def end_session (w : World) : World :=
  { w with session :=
    { is_active := false, players := [], waiting_ids := [], active_matches := [],
      max_tables := 0 } }

/-- How a record_result request terminates. ok covers both the active and the
inactive snapshot responses; playerNotFound is the 404; the crash outcomes
are the KeyError raised on the session cache when an id known to the roster
is missing from session players (HTTP 500, partial mutation kept). -/
inductive RecordOutcome where
  | playerNotFound
  | crashWinnerMissing
  | crashLoserMissing
  | ok
deriving DecidableEq

/-- The predicate record_result uses to locate the finished match: the stored
pair equals {winner, loser} in either orientation. -/
def isPairOf (a b : Nat) (m : TTMatch) : Bool :=
  (m.player1Id == a && m.player2Id == b) || (m.player1Id == b && m.player2Id == a)

/-- The winner update written into the session player cache:
elo := round result, wins += 1. -/
def bumpWinner (nw : Int) (pw : Player) : Player :=
  { pw with elo := nw, wins := pw.wins + 1 }

/-- The loser update written into the session player cache:
elo := round result, losses += 1. -/
def bumpLoser (nl : Int) (pl : Player) : Player :=
  { pl with elo := nl, losses := pl.losses + 1 }

/-- The session half of record_result, applied after the roster (CSV) write:
update the session copies of both players (a missing id raises KeyError,
leaving the mutations made so far), drop the finished match, re-queue both
ids, re-sort and refill. -/
def record_session (nw nl : Int) (winner_id loser_id : Nat) (s : SessionData) :
    SessionData × RecordOutcome :=
  if s.is_active then
    match dictFind s.players winner_id with
    | none => (s, .crashWinnerMissing)
    | some pw =>
      match dictFind (dictInsert s.players winner_id (bumpWinner nw pw)) loser_id with
      | none =>
        ({ s with players := dictInsert s.players winner_id (bumpWinner nw pw) },
         .crashLoserMissing)
      | some pl =>
        let pmap2 := dictInsert (dictInsert s.players winner_id (bumpWinner nw pw)) loser_id (bumpLoser nl pl)
        let s1 : SessionData :=
          { s with
            players := pmap2,
            waiting_ids := sortByEloDesc pmap2 (s.waiting_ids ++ [winner_id, loser_id]),
            active_matches := s.active_matches.filter (fun m => !(isPairOf winner_id loser_id m)) }
        (fill_empty_tables s1, .ok)
  else (s, .ok)

/-- Everything record_result does after computing the new ratings nw/nl for
the two roster entries already found: persist the rounded ratings and the
win/loss counts to the roster, then run the session half. -/
def record_apply (nw nl : Int) (winner_id loser_id : Nat) (w : World) : World × RecordOutcome :=
  let roster1 := updateFirst (fun p => { p with elo := nw, wins := p.wins + 1 }) winner_id w.roster
  let roster2 := updateFirst (fun p => { p with elo := nl, losses := p.losses + 1 }) loser_id roster1
  let sr := record_session nw nl winner_id loser_id w.session
  ({ roster := roster2, session := sr.1 }, sr.2)

/-- record_result handler, parametric in the rating engine R (the program
instantiates R with eloEngine). Both ids are first resolved against the
freshly read roster; an unresolved id yields the 404 with no mutation. -/
def record_result (R : Int → Int → Int → Int → Int × Int)
    (winner_id loser_id : Nat) (winner_score loser_score : Int) (w : World) :
    World × RecordOutcome :=
  match w.roster.find? (fun p => p.id == winner_id),
        w.roster.find? (fun p => p.id == loser_id) with
  | some winner, some loser =>
    record_apply (R winner.elo loser.elo winner_score loser_score).1
      (R winner.elo loser.elo winner_score loser_score).2 winner_id loser_id w
  | _, _ => (w, .playerNotFound)

/-- One match entry of the snapshot: the stored ids plus the session player
records resolved through dict.get (None when absent). -/
structure MatchView where
  id : String
  player1Id : Nat
  player2Id : Nat
  player1 : Option Player
  player2 : Option Player
deriving DecidableEq

/-- The snapshot sent to the frontend. waitingPlayers is the resolved queue
(the Python code indexes the dict directly; Option models the lookup). -/
structure SessionView where
  isActive : Bool
  activeMatches : List MatchView
  waitingPlayers : List (Option Player)
deriving DecidableEq

/-- get_session_state. -/
def get_session_state (s : SessionData) : SessionView :=
  { isActive := s.is_active,
    activeMatches := s.active_matches.map (fun m =>
      { id := m.id, player1Id := m.player1Id, player2Id := m.player2Id,
        player1 := dictFind s.players m.player1Id,
        player2 := dictFind s.players m.player2Id }),
    waitingPlayers := s.waiting_ids.map (fun pid => dictFind s.players pid) }

/-- One external request to the service (the session-state GET is pure). -/
inductive Op where
  | addPlayer (name : String)
  | deletePlayer (pid : Nat)
  | togglePlayer (pid : Nat)
  | startSession (tableCount : Int)
  | endSession
  | recordResult (winnerId loserId : Nat) (winnerScore loserScore : Int)
deriving DecidableEq

/-- The state transition of one request, parametric in the rating engine. -/
def step (R : Int → Int → Int → Int → Int × Int) (w : World) : Op → World
  | .addPlayer name => add_player name w
  | .deletePlayer pid => delete_player pid w
  | .togglePlayer pid => toggle_player_status pid w
  | .startSession tc => (start_session tc w).1
  | .endSession => end_session w
  | .recordResult a b ws ls => (record_result R a b ws ls w).1

/-- Run a sequence of requests. -/
def runOps (R : Int → Int → Int → Int → Int × Int) (w : World) : List Op → World
  | [] => w
  | op :: rest => runOps R (step R w op) rest

/-- The state of a fresh deployment: empty players.csv (created by __main__),
initial session_data literal. -/
def initWorld : World :=
  { roster := [],
    session := { is_active := false, players := [], waiting_ids := [],
                 active_matches := [], max_tables := 0 } }

/-- A run in which every request satisfies the side condition P at the moment
it is issued. -/
def okSeq (R : Int → Int → Int → Int → Int × Int) (P : World → Op → Bool) :
    World → List Op → Bool
  | _, [] => true
  | w, op :: rest => P w op && okSeq R P (step R w op) rest

/-- Side condition for the queue/match disjointness invariant: every result
is recorded for a pair that has an active match, and a player admitted into
a live session never reuses the id of a current session member (id reuse is
possible after deleting a session participant from the roster mid-session). -/
def okDisj (w : World) : Op → Bool
  | .recordResult a b _ _ =>
    !w.session.is_active || w.session.active_matches.any (isPairOf a b)
  | .addPlayer _ =>
    !w.session.is_active ||
      !(decide (get_next_player_id w.roster ∈ sessionIds w.session))
  | _ => true

/-- Side condition for the capacity invariant: every start request carries a
non-negative table count and is issued with at least two active players (a
rejected start overwrites max_tables without clearing the matches). -/
def okCap (w : World) : Op → Bool
  | .startSession tc =>
    decide (0 ≤ tc) && decide (2 ≤ (w.roster.filter (fun p => p.is_playing)).length)
  | _ => true

/-- Side condition for the queue-ordering invariant: no request crashes, i.e.
a result recorded while a session is active, for ids the roster resolves,
always finds both ids in the session players (otherwise the handler dies in a
KeyError after updating only the winner entry, skipping the queue re-sort). -/
def okNoCrash (w : World) : Op → Bool
  | .recordResult a b _ _ =>
    !(w.session.is_active
      && w.roster.any (fun p => p.id == a) && w.roster.any (fun p => p.id == b)
      && !(w.session.players.any (fun e => e.1 == a)
           && w.session.players.any (fun e => e.1 == b)))
  | _ => true

/-- The queue is sorted by non-increasing current rating. -/
def SortedDesc (s : SessionData) : Prop :=
  s.waiting_ids.Pairwise (fun a b => eloKey s.players b ≤ eloKey s.players a)

/-- The capacity invariant: no more active matches than tables. -/
def CapSess (s : SessionData) : Prop :=
  (s.active_matches.length : Int) ≤ s.max_tables

/-- The structural invariant behind the disjointness claim: roster ids are
unique, and every id holds at most one seat in the session (queue position or
match slot). -/
def WInv (w : World) : Prop :=
  (w.roster.map (fun p => p.id)).Nodup ∧ (sessionIds w.session).Nodup

/-! ### Concrete fixtures: small reachable states used by witnesses and
counterexamples. Each is the literal value of runOps on the listed request
sequence (checked by rfl below). -/

/-- Player "a", id 1, as created by add_player on a fresh roster. -/
def pA : Player := { id := 1, name := "a", elo := 1000, wins := 0, losses := 0, is_playing := true }

/-- Player "b", id 2. -/
def pB : Player := { id := 2, name := "b", elo := 1000, wins := 0, losses := 0, is_playing := true }

/-- Player "c", id 3. -/
def pC : Player := { id := 3, name := "c", elo := 1000, wins := 0, losses := 0, is_playing := true }

/-- Player "d", id 4. -/
def pD : Player := { id := 4, name := "d", elo := 1000, wins := 0, losses := 0, is_playing := true }

/-- Player "e", id 5. -/
def pE : Player := { id := 5, name := "e", elo := 1000, wins := 0, losses := 0, is_playing := true }

/-- Player "a" after being toggled inactive. -/
def pAoff : Player := { pA with is_playing := false }

/-- The empty session literal the program starts with and resets to. -/
def emptySession : SessionData :=
  { is_active := false, players := [], waiting_ids := [], active_matches := [], max_tables := 0 }

/-- World after [addPlayer "a"]. -/
def W1A : World := { roster := [pA], session := emptySession }

/-- World after [addPlayer "a", addPlayer "b"]. -/
def W2 : World := { roster := [pA, pB], session := emptySession }

/-- World after adding players a and b and starting a 1-table session. -/
def W2S : World :=
  { roster := [pA, pB],
    session :=
      { is_active := true, players := [(1, pA), (2, pB)], waiting_ids := [],
        active_matches := [mkTTMatch 1 2], max_tables := 1 } }

/-- Requests: add a, b, c, then start a 1-table session. -/
def preOpsA : List Op :=
  [.addPlayer "a", .addPlayer "b", .addPlayer "c", .startSession 1]

/-- World after preOpsA: match 1-2 active, 3 waiting. -/
def W5 : World :=
  { roster := [pA, pB, pC],
    session :=
      { is_active := true, players := [(1, pA), (2, pB), (3, pC)], waiting_ids := [3],
        active_matches := [mkTTMatch 1 2], max_tables := 1 } }

/-- Requests: add a..e, start a 1-table session, then deactivate player 1
while it occupies the active match. -/
def preOpsC : List Op :=
  [.addPlayer "a", .addPlayer "b", .addPlayer "c", .addPlayer "d", .addPlayer "e",
   .startSession 1, .togglePlayer 1]

/-- World after preOpsC: player 1 is out of the session players and the
queue but still seated in the active match, and still on the roster. -/
def WC : World :=
  { roster := [pAoff, pB, pC, pD, pE],
    session :=
      { is_active := true, players := [(2, pB), (3, pC), (4, pD), (5, pE)],
        waiting_ids := [3, 4, 5], active_matches := [mkTTMatch 1 2], max_tables := 1 } }

/-- Requests driving the capacity counterexample: start a session with two
players, deactivate both, then ask to restart with zero tables (rejected for
insufficient players, but max_tables is overwritten anyway). -/
def capOps : List Op :=
  [.addPlayer "a", .addPlayer "b", .startSession 1, .togglePlayer 1, .togglePlayer 2,
   .startSession 0]

/-! ### Basic lemmas about the rounding and the rating formula -/

theorem pyRound_intCast (n : ℤ) : pyRound (n : ℝ) = n := by
  simp [pyRound]

theorem floor_le_pyRound (x : ℝ) : ⌊x⌋ ≤ pyRound x := by
  unfold pyRound
  split_ifs <;> omega

theorem pyRound_le_floor_add_one (x : ℝ) : pyRound x ≤ ⌊x⌋ + 1 := by
  unfold pyRound
  split_ifs <;> omega

theorem k_factor_pos (ws ls : Int) : 0 < k_factor ws ls := by
  unfold k_factor K_BASE
  split_ifs <;> norm_num

theorem prob_winner_lt_one (wr lr : ℝ) : prob_winner wr lr < 1 := by
  unfold prob_winner
  have ht : (0:ℝ) < (10 : ℝ) ^ ((lr - wr) / 400) :=
    Real.rpow_pos_of_pos (by norm_num) _
  rw [div_lt_one (by linarith)]
  linarith

theorem prob_winner_pos (wr lr : ℝ) : 0 < prob_winner wr lr := by
  unfold prob_winner
  have ht : (0:ℝ) < (10 : ℝ) ^ ((lr - wr) / 400) :=
    Real.rpow_pos_of_pos (by norm_num) _
  positivity

theorem rating_change_pos (wr lr : ℝ) (ws ls : Int) : 0 < rating_change wr lr ws ls := by
  unfold rating_change
  have h1 := prob_winner_lt_one wr lr
  exact mul_pos (k_factor_pos ws ls) (by linarith)

theorem eloEngine_winner_ge (wr lr ws ls : Int) : wr ≤ (eloEngine wr lr ws ls).1 := by
  unfold eloEngine calculate_new_ratings
  have h1 := rating_change_pos (wr : ℝ) (lr : ℝ) ws ls
  have h2 : wr ≤ ⌊(wr : ℝ) + rating_change (wr : ℝ) (lr : ℝ) ws ls⌋ := by
    rw [Int.le_floor]
    linarith
  exact h2.trans (floor_le_pyRound _)

theorem eloEngine_loser_le (wr lr ws ls : Int) : (eloEngine wr lr ws ls).2 ≤ lr := by
  unfold eloEngine calculate_new_ratings
  have h1 := rating_change_pos (wr : ℝ) (lr : ℝ) ws ls
  have h2 : ⌊(lr : ℝ) - rating_change (wr : ℝ) (lr : ℝ) ws ls⌋ + 1 ≤ lr := by
    have h3 : ⌊(lr : ℝ) - rating_change (wr : ℝ) (lr : ℝ) ws ls⌋ < lr := by
      rw [Int.floor_lt]
      linarith
    omega
  exact (pyRound_le_floor_add_one _).trans h2

theorem k_factor_21 : k_factor 2 1 = 32 := by
  rw [k_factor, K_BASE, if_neg (by norm_num)]
  norm_num

theorem prob_winner_equal (r : ℝ) : prob_winner r r = 1 / 2 := by
  rw [prob_winner, show (r - r) / 400 = 0 by ring, Real.rpow_zero]
  norm_num

theorem eloEngine_equal_21 : eloEngine 1000 1000 2 1 = (1016, 984) := by
  have hrc : rating_change ((1000 : ℤ) : ℝ) ((1000 : ℤ) : ℝ) 2 1 = 16 := by
    rw [rating_change, prob_winner_equal, k_factor_21]
    norm_num
  have h1 : ((1000 : ℤ) : ℝ) + rating_change ((1000 : ℤ) : ℝ) ((1000 : ℤ) : ℝ) 2 1
      = ((1016 : ℤ) : ℝ) := by rw [hrc]; norm_num
  have h2 : ((1000 : ℤ) : ℝ) - rating_change ((1000 : ℤ) : ℝ) ((1000 : ℤ) : ℝ) 2 1
      = ((984 : ℤ) : ℝ) := by rw [hrc]; norm_num
  unfold eloEngine calculate_new_ratings
  rw [h1, h2]
  simp only [pyRound_intCast]

theorem k_factor_20 : k_factor 2 0 = 48 := by
  rw [k_factor, K_BASE, if_pos (by norm_num)]
  norm_num

theorem eloEngine_equal_20 : eloEngine 1000 1000 2 0 = (1024, 976) := by
  have hrc : rating_change ((1000 : ℤ) : ℝ) ((1000 : ℤ) : ℝ) 2 0 = 24 := by
    rw [rating_change, prob_winner_equal, k_factor_20]
    norm_num
  have h1 : ((1000 : ℤ) : ℝ) + rating_change ((1000 : ℤ) : ℝ) ((1000 : ℤ) : ℝ) 2 0
      = ((1024 : ℤ) : ℝ) := by rw [hrc]; norm_num
  have h2 : ((1000 : ℤ) : ℝ) - rating_change ((1000 : ℤ) : ℝ) ((1000 : ℤ) : ℝ) 2 0
      = ((976 : ℤ) : ℝ) := by rw [hrc]; norm_num
  unfold eloEngine calculate_new_ratings
  rw [h1, h2]
  simp only [pyRound_intCast]

/-! ### Lemmas about the dictionary operations -/

theorem dictFind_nil (k : Nat) : dictFind [] k = none := rfl

theorem dictFind_cons_of_eq (k : Nat) (e : Nat × Player) (t : List (Nat × Player))
    (h : e.1 = k) : dictFind (e :: t) k = some e.2 := by
  unfold dictFind
  rw [List.find?_cons_of_pos t (by simpa using h)]
  rfl

theorem dictFind_cons_of_ne (k : Nat) (e : Nat × Player) (t : List (Nat × Player))
    (h : ¬e.1 = k) : dictFind (e :: t) k = dictFind t k := by
  unfold dictFind
  rw [List.find?_cons_of_neg t (by simpa using h)]

theorem eraseKey_cons_of_eq (k : Nat) (e : Nat × Player) (t : List (Nat × Player))
    (h : e.1 = k) : eraseKey (e :: t) k = eraseKey t k := by
  unfold eraseKey
  rw [List.filter_cons, if_neg (by simpa using h)]

theorem eraseKey_cons_of_ne (k : Nat) (e : Nat × Player) (t : List (Nat × Player))
    (h : ¬e.1 = k) : eraseKey (e :: t) k = e :: eraseKey t k := by
  unfold eraseKey
  rw [List.filter_cons, if_pos (by simpa using h)]

theorem dictFind_eraseKey_self (l : List (Nat × Player)) (k : Nat) :
    dictFind (eraseKey l k) k = none := by
  induction l with
  | nil => rfl
  | cons e t ih =>
    by_cases h : e.1 = k
    · rw [eraseKey_cons_of_eq k e t h, ih]
    · rw [eraseKey_cons_of_ne k e t h, dictFind_cons_of_ne k e _ h, ih]

theorem dictFind_eraseKey_ne (l : List (Nat × Player)) (k x : Nat) (h : x ≠ k) :
    dictFind (eraseKey l k) x = dictFind l x := by
  induction l with
  | nil => rfl
  | cons e t ih =>
    by_cases h1 : e.1 = k
    · have h2 : ¬e.1 = x := by omega
      rw [eraseKey_cons_of_eq k e t h1, dictFind_cons_of_ne x e t h2, ih]
    · by_cases h2 : e.1 = x
      · rw [eraseKey_cons_of_ne k e t h1, dictFind_cons_of_eq x e _ h2,
          dictFind_cons_of_eq x e t h2]
      · rw [eraseKey_cons_of_ne k e t h1, dictFind_cons_of_ne x e _ h2,
          dictFind_cons_of_ne x e t h2, ih]

theorem dictInsert_cons_of_eq (k : Nat) (v : Player) (e : Nat × Player)
    (t : List (Nat × Player)) (h : e.1 = k) :
    dictInsert (e :: t) k v = (k, v) :: t := by
  unfold dictInsert
  rw [if_pos (by simpa using h)]

theorem dictInsert_cons_of_ne (k : Nat) (v : Player) (e : Nat × Player)
    (t : List (Nat × Player)) (h : ¬e.1 = k) :
    dictInsert (e :: t) k v = e :: dictInsert t k v := by
  have hb : (e.1 == k) = false := by simpa using h
  simp only [dictInsert, hb, Bool.false_eq_true, if_false]

theorem dictFind_dictInsert_self (l : List (Nat × Player)) (k : Nat) (v : Player) :
    dictFind (dictInsert l k v) k = some v := by
  induction l with
  | nil => exact dictFind_cons_of_eq k (k, v) [] rfl
  | cons e t ih =>
    by_cases h : e.1 = k
    · rw [dictInsert_cons_of_eq k v e t h]
      exact dictFind_cons_of_eq k (k, v) t rfl
    · rw [dictInsert_cons_of_ne k v e t h, dictFind_cons_of_ne k e _ h, ih]

theorem dictFind_dictInsert_ne (l : List (Nat × Player)) (k x : Nat) (v : Player)
    (h : x ≠ k) : dictFind (dictInsert l k v) x = dictFind l x := by
  induction l with
  | nil =>
    rw [show dictInsert [] k v = [(k, v)] from rfl,
      dictFind_cons_of_ne x (k, v) [] (by omega)]
  | cons e t ih =>
    by_cases h1 : e.1 = k
    · have h2 : ¬(k, v).1 = x := by omega
      have h3 : ¬e.1 = x := by omega
      rw [dictInsert_cons_of_eq k v e t h1, dictFind_cons_of_ne x (k, v) t h2,
        dictFind_cons_of_ne x e t h3]
    · by_cases h2 : e.1 = x
      · rw [dictInsert_cons_of_ne k v e t h1, dictFind_cons_of_eq x e _ h2,
          dictFind_cons_of_eq x e t h2]
      · rw [dictInsert_cons_of_ne k v e t h1, dictFind_cons_of_ne x e _ h2,
          dictFind_cons_of_ne x e t h2, ih]

theorem dictFind_isSome_of_any (l : List (Nat × Player)) (k : Nat)
    (h : l.any (fun e => e.1 == k) = true) : (dictFind l k).isSome := by
  induction l with
  | nil => simp at h
  | cons e t ih =>
    by_cases h1 : e.1 = k
    · rw [dictFind_cons_of_eq k e t h1]
      rfl
    · rw [dictFind_cons_of_ne k e t h1]
      rw [List.any_cons] at h
      have h2 : (e.1 == k) = false := by simpa using h1
      rw [h2, Bool.false_or] at h
      exact ih h

/-! ### Lemmas about updateFirst and the roster id list -/

theorem updateFirst_map_id (f : Player → Player) (hf : ∀ p, (f p).id = p.id)
    (pid : Nat) (l : List Player) :
    (updateFirst f pid l).map (fun p => p.id) = l.map (fun p => p.id) := by
  induction l with
  | nil => rfl
  | cons p t ih =>
    by_cases h : p.id = pid
    · simp [updateFirst, h, hf]
    · simp [updateFirst, h, ih]

/-! ### Lemmas about matchIds and the fill loop -/

theorem matchIds_append (l1 l2 : List TTMatch) :
    matchIds (l1 ++ l2) = matchIds l1 ++ matchIds l2 := by
  induction l1 with
  | nil => rfl
  | cons m t ih => simp [matchIds, ih]

theorem fill_aux_short (tc : Int) (ws : List Nat) (ms : List TTMatch)
    (h : ∀ p1 p2 rest, ws = p1 :: p2 :: rest → False) :
    fill_aux tc ws ms = (ws, ms) := by
  cases ws with
  | nil => rfl
  | cons a t =>
    cases t with
    | nil => rfl
    | cons b u => exact absurd rfl (h a b u)

theorem fill_aux_perm (tc : Int) : ∀ ws ms,
    ((fill_aux tc ws ms).1 ++ matchIds (fill_aux tc ws ms).2).Perm (ws ++ matchIds ms) := by
  intro ws ms
  induction ws, ms using fill_aux.induct tc with
  | case1 p1 p2 rest ms hlt ih =>
    rw [fill_aux, if_pos hlt]
    refine ih.trans ?_
    rw [matchIds_append]
    have h1 : matchIds [mkTTMatch p1 p2] = [p1, p2] := rfl
    rw [h1, ← List.append_assoc]
    refine (List.perm_append_comm).trans ?_
    simp [List.perm_append_comm]
  | case2 p1 p2 rest ms hlt =>
    rw [fill_aux, if_neg hlt]
  | case3 ws ms h =>
    rw [fill_aux_short tc ws ms h]

theorem fill_aux_waiting_sublist (tc : Int) : ∀ ws ms,
    (fill_aux tc ws ms).1.Sublist ws := by
  intro ws ms
  induction ws, ms using fill_aux.induct tc with
  | case1 p1 p2 rest ms hlt ih =>
    rw [fill_aux, if_pos hlt]
    refine ih.trans ?_
    exact ((List.sublist_cons_self p2 rest).trans (List.sublist_cons_self p1 _))
  | case2 p1 p2 rest ms hlt =>
    rw [fill_aux, if_neg hlt]
  | case3 ws ms h =>
    rw [fill_aux_short tc ws ms h]

theorem fill_aux_len (tc : Int) : ∀ ws ms, (ms.length : Int) ≤ tc →
    (((fill_aux tc ws ms).2.length : Int)) ≤ tc := by
  intro ws ms
  induction ws, ms using fill_aux.induct tc with
  | case1 p1 p2 rest ms hlt ih =>
    intro _
    rw [fill_aux, if_pos hlt]
    refine ih ?_
    simp only [List.length_append, List.length_cons, List.length_nil]
    push_cast
    omega
  | case2 p1 p2 rest ms hlt =>
    intro h
    rw [fill_aux, if_neg hlt]
    exact h
  | case3 ws ms h =>
    intro hlen
    rw [fill_aux_short tc ws ms h]
    exact hlen

theorem fill_aux_matches_mem (tc : Int) : ∀ ws ms m, m ∈ ms →
    m ∈ (fill_aux tc ws ms).2 := by
  intro ws ms
  induction ws, ms using fill_aux.induct tc with
  | case1 p1 p2 rest ms hlt ih =>
    intro m hm
    rw [fill_aux, if_pos hlt]
    exact ih m (List.mem_append_left _ hm)
  | case2 p1 p2 rest ms hlt =>
    intro m hm
    rw [fill_aux, if_neg hlt]
    exact hm
  | case3 ws ms h =>
    intro m hm
    rw [fill_aux_short tc ws ms h]
    exact hm

/-! ### Lemmas about the stable descending sort -/

theorem sortByEloDesc_perm (players : List (Nat × Player)) (l : List Nat) :
    (sortByEloDesc players l).Perm l :=
  List.perm_insertionSort _ l

theorem sortByEloDesc_sorted (players : List (Nat × Player)) (l : List Nat) :
    (sortByEloDesc players l).Pairwise
      (fun a b => eloKey players b ≤ eloKey players a) := by
  haveI : IsTotal Nat (fun a b => eloKey players b ≤ eloKey players a) :=
    ⟨fun a b => le_total (eloKey players b) (eloKey players a)⟩
  haveI : IsTrans Nat (fun a b => eloKey players b ≤ eloKey players a) :=
    ⟨fun _ _ _ hab hbc => le_trans hbc hab⟩
  exact List.sorted_insertionSort _ l

/-! ### Lifted lemmas about fill_empty_tables -/

theorem fill_players_eq (s : SessionData) : (fill_empty_tables s).players = s.players := rfl

theorem fill_is_active_eq (s : SessionData) :
    (fill_empty_tables s).is_active = s.is_active := rfl

theorem fill_max_tables_eq (s : SessionData) :
    (fill_empty_tables s).max_tables = s.max_tables := rfl

theorem fill_sessionIds_perm (s : SessionData) :
    (sessionIds (fill_empty_tables s)).Perm (sessionIds s) :=
  fill_aux_perm s.max_tables s.waiting_ids s.active_matches

theorem fill_waiting_sublist (s : SessionData) :
    (fill_empty_tables s).waiting_ids.Sublist s.waiting_ids :=
  fill_aux_waiting_sublist s.max_tables s.waiting_ids s.active_matches

theorem fill_matches_len (s : SessionData)
    (h : (s.active_matches.length : Int) ≤ s.max_tables) :
    (((fill_empty_tables s).active_matches.length : Int)) ≤ s.max_tables :=
  fill_aux_len s.max_tables s.waiting_ids s.active_matches h

theorem fill_matches_mem (s : SessionData) (m : TTMatch) (h : m ∈ s.active_matches) :
    m ∈ (fill_empty_tables s).active_matches :=
  fill_aux_matches_mem s.max_tables s.waiting_ids s.active_matches m h

/-! ### Freshness of generated player ids -/

theorem id_le_foldr_max (l : List Player) (p : Player) (h : p ∈ l) :
    p.id ≤ l.foldr (fun q acc => Nat.max q.id acc) 0 := by
  induction l with
  | nil => cases h
  | cons q t ih =>
    rcases List.mem_cons.mp h with h1 | h1
    · subst h1
      exact Nat.le_max_left _ _
    · exact (ih h1).trans (Nat.le_max_right _ _)

theorem get_next_player_id_not_mem (l : List Player) :
    get_next_player_id l ∉ l.map (fun p => p.id) := by
  intro hmem
  rcases List.mem_map.mp hmem with ⟨p, hp, hid⟩
  have h1 := id_le_foldr_max l p hp
  rw [hid] at h1
  unfold get_next_player_id at h1
  omega

/-! ### matchIds membership and the pair-removal step -/

theorem mem_matchIds_of_mem (m : TTMatch) (ms : List TTMatch) (h : m ∈ ms) :
    m.player1Id ∈ matchIds ms ∧ m.player2Id ∈ matchIds ms := by
  induction ms with
  | nil => cases h
  | cons m2 t ih =>
    rcases List.mem_cons.mp h with h1 | h1
    · subst h1
      exact ⟨List.mem_cons_self _ _, List.mem_cons_of_mem _ (List.mem_cons_self _ _)⟩
    · exact ⟨List.mem_cons_of_mem _ (List.mem_cons_of_mem _ (ih h1).1),
        List.mem_cons_of_mem _ (List.mem_cons_of_mem _ (ih h1).2)⟩

theorem isPairOf_cases (a b : Nat) (m : TTMatch) (h : isPairOf a b m = true) :
    (m.player1Id = a ∧ m.player2Id = b) ∨ (m.player1Id = b ∧ m.player2Id = a) := by
  simpa [isPairOf] using h

theorem mem_of_isPairOf_left (a b : Nat) (m : TTMatch) (h : isPairOf a b m = true)
    (ms : List TTMatch) (hm : m ∈ ms) : a ∈ matchIds ms := by
  rcases isPairOf_cases a b m h with ⟨h1, _⟩ | ⟨_, h2⟩
  · rw [← h1]
    exact (mem_matchIds_of_mem m ms hm).1
  · rw [← h2]
    exact (mem_matchIds_of_mem m ms hm).2

theorem matchIds_filter_pair (a b : Nat) (ms : List TTMatch)
    (hnd : (matchIds ms).Nodup) (hm : ms.any (isPairOf a b) = true) :
    (matchIds ms).Perm
      (a :: b :: matchIds (ms.filter (fun m => !(isPairOf a b m)))) := by
  rcases List.any_eq_true.mp hm with ⟨m0, hm0, hp0⟩
  rcases List.append_of_mem hm0 with ⟨l1, l2, rfl⟩
  have hsplit : matchIds (l1 ++ m0 :: l2)
      = matchIds l1 ++ m0.player1Id :: m0.player2Id :: matchIds l2 := by
    rw [matchIds_append]
    rfl
  rw [hsplit] at hnd ⊢
  -- no other match mentions a or b, so the filter keeps everything else
  have hnd2 := hnd
  rw [List.nodup_append] at hnd2
  have hkeep1 : ∀ m ∈ l1, (!(isPairOf a b m)) = true := by
    intro m hmem
    by_contra hcon
    have hpair : isPairOf a b m = true := by
      revert hcon
      cases isPairOf a b m <;> simp
    have ha1 : a ∈ matchIds l1 := mem_of_isPairOf_left a b m hpair l1 hmem
    have ha2 : a ∈ m0.player1Id :: m0.player2Id :: matchIds l2 := by
      rcases isPairOf_cases a b m0 hp0 with ⟨h1, _⟩ | ⟨_, h2⟩
      · rw [← h1]; exact List.mem_cons_self _ _
      · rw [← h2]; exact List.mem_cons_of_mem _ (List.mem_cons_self _ _)
    exact hnd2.2.2 ha1 ha2
  have hkeep2 : ∀ m ∈ l2, (!(isPairOf a b m)) = true := by
    intro m hmem
    by_contra hcon
    have hpair : isPairOf a b m = true := by
      revert hcon
      cases isPairOf a b m <;> simp
    have ha1 : a ∈ matchIds l2 := mem_of_isPairOf_left a b m hpair l2 hmem
    have hnd3 : (m0.player1Id :: m0.player2Id :: matchIds l2).Nodup := hnd2.2.1
    rcases isPairOf_cases a b m0 hp0 with ⟨h1, _⟩ | ⟨_, h2⟩
    · rw [List.nodup_cons] at hnd3
      exact hnd3.1 (by rw [h1]; exact List.mem_cons_of_mem _ ha1)
    · rw [List.nodup_cons, List.nodup_cons] at hnd3
      exact hnd3.2.1 (by rw [h2]; exact ha1)
  have hfilter : (l1 ++ m0 :: l2).filter (fun m => !(isPairOf a b m)) = l1 ++ l2 := by
    rw [List.filter_append, List.filter_cons, if_neg (by simp [hp0]),
      List.filter_eq_self.mpr hkeep1, List.filter_eq_self.mpr hkeep2]
  rw [hfilter, matchIds_append]
  -- shuffle m0 ids to the front
  rcases isPairOf_cases a b m0 hp0 with ⟨h1, h2⟩ | ⟨h1, h2⟩
  · rw [h1, h2]
    refine List.perm_middle.trans ?_
    exact List.Perm.cons a List.perm_middle
  · rw [h1, h2]
    refine List.perm_middle.trans ?_
    refine ((List.Perm.cons b List.perm_middle).trans ?_)
    exact List.Perm.swap a b _

/-! ### Shape lemmas for record_result -/

theorem record_result_of_none_left (R : Int → Int → Int → Int → Int × Int)
    (a b : Nat) (ws ls : Int) (w : World)
    (h : w.roster.find? (fun p => p.id == a) = none) :
    record_result R a b ws ls w = (w, .playerNotFound) := by
  unfold record_result
  rw [h]

theorem record_result_of_none_right (R : Int → Int → Int → Int → Int × Int)
    (a b : Nat) (ws ls : Int) (w : World)
    (h : w.roster.find? (fun p => p.id == b) = none) :
    record_result R a b ws ls w = (w, .playerNotFound) := by
  unfold record_result
  rw [h]
  cases w.roster.find? (fun p => p.id == a) <;> rfl

theorem record_result_of_some (R : Int → Int → Int → Int → Int × Int)
    (a b : Nat) (ws ls : Int) (w : World) (winner loser : Player)
    (hw : w.roster.find? (fun p => p.id == a) = some winner)
    (hl : w.roster.find? (fun p => p.id == b) = some loser) :
    record_result R a b ws ls w
      = record_apply (R winner.elo loser.elo ws ls).1 (R winner.elo loser.elo ws ls).2 a b w := by
  unfold record_result
  rw [hw, hl]

/-! ### The session half of record_result permutes the seated ids -/

theorem ok_branch_ids_perm (s : SessionData) (pm : List (Nat × Player)) (a b : Nat)
    (hnd : (sessionIds s).Nodup)
    (hany : s.active_matches.any (isPairOf a b) = true) :
    (sessionIds (fill_empty_tables
      { s with
        players := pm,
        waiting_ids := sortByEloDesc pm (s.waiting_ids ++ [a, b]),
        active_matches := s.active_matches.filter (fun m => !(isPairOf a b m)) })).Perm
      (sessionIds s) := by
  refine (fill_sessionIds_perm _).trans ?_
  show (sortByEloDesc pm (s.waiting_ids ++ [a, b])
      ++ matchIds (s.active_matches.filter (fun m => !(isPairOf a b m)))).Perm (sessionIds s)
  refine (List.Perm.append_right _ (sortByEloDesc_perm pm (s.waiting_ids ++ [a, b]))).trans ?_
  rw [List.append_assoc]
  have hmnd : (matchIds s.active_matches).Nodup := (List.nodup_append.mp hnd).2.1
  have hfp := matchIds_filter_pair a b s.active_matches hmnd hany
  exact List.Perm.append_left s.waiting_ids hfp.symm

theorem record_session_ids_perm (nw nl : Int) (a b : Nat) (s : SessionData)
    (hnd : (sessionIds s).Nodup)
    (hpair : s.is_active = true → s.active_matches.any (isPairOf a b) = true) :
    (sessionIds (record_session nw nl a b s).1).Perm (sessionIds s) := by
  unfold record_session
  split
  · rename_i hact
    split
    · exact List.Perm.refl _
    · rename_i pw hfw
      split
      · exact List.Perm.refl _
      · rename_i pl hfl
        exact ok_branch_ids_perm s _ a b hnd (hpair hact)
  · exact List.Perm.refl _

theorem record_apply_roster (nw nl : Int) (a b : Nat) (w : World) :
    (record_apply nw nl a b w).1.roster
      = updateFirst (fun p => { p with elo := nl, losses := p.losses + 1 }) b
          (updateFirst (fun p => { p with elo := nw, wins := p.wins + 1 }) a w.roster) := rfl

theorem record_apply_session (nw nl : Int) (a b : Nat) (w : World) :
    (record_apply nw nl a b w).1.session = (record_session nw nl a b w.session).1 := rfl

/-! ### Preservation of the structural invariant by every conditioned step -/

theorem winv_record_apply (nw nl : Int) (a b : Nat) (w : World) (hI : WInv w)
    (hpair : w.session.is_active = true →
      w.session.active_matches.any (isPairOf a b) = true) :
    WInv (record_apply nw nl a b w).1 := by
  constructor
  · rw [record_apply_roster]
    rw [updateFirst_map_id (fun p => { p with elo := nl, losses := p.losses + 1 })
      (fun p => rfl) b]
    rw [updateFirst_map_id (fun p => { p with elo := nw, wins := p.wins + 1 })
      (fun p => rfl) a]
    exact hI.1
  · rw [record_apply_session]
    exact ((record_session_ids_perm nw nl a b w.session hI.2 hpair).nodup_iff).mpr hI.2

theorem add_branch_ids_perm (s : SessionData) (pm : List (Nat × Player)) (nid : Nat) :
    (sessionIds (fill_empty_tables
      { s with
        players := pm,
        waiting_ids := sortByEloDesc pm (s.waiting_ids ++ [nid]) })).Perm
      (nid :: sessionIds s) := by
  refine (fill_sessionIds_perm _).trans ?_
  show (sortByEloDesc pm (s.waiting_ids ++ [nid]) ++ matchIds s.active_matches).Perm _
  refine (List.Perm.append_right _ (sortByEloDesc_perm pm (s.waiting_ids ++ [nid]))).trans ?_
  rw [List.append_assoc]
  exact List.perm_middle

theorem winv_add (name : String) (w : World) (hI : WInv w)
    (hfresh : w.session.is_active = true →
      get_next_player_id w.roster ∉ sessionIds w.session) :
    WInv (add_player name w) := by
  unfold add_player
  by_cases hname : (pyStrip name == "") = true
  · rw [if_pos hname]
    exact hI
  · rw [if_neg hname]
    have hro : ((w.roster ++ [({ id := get_next_player_id w.roster, name := pyStrip name, elo := STARTING_ELO, wins := 0, losses := 0, is_playing := true } : Player)]).map (fun p => p.id)).Nodup := by
      rw [List.map_append, List.nodup_append]
      refine ⟨hI.1, List.nodup_singleton _, ?_⟩
      intro x hx hx2
      simp only [List.map_cons, List.map_nil, List.mem_singleton] at hx2
      subst hx2
      exact get_next_player_id_not_mem w.roster hx
    by_cases hact : w.session.is_active
    · rw [if_pos hact]
      refine ⟨hro, ?_⟩
      have hperm := add_branch_ids_perm w.session
        (dictInsert w.session.players (get_next_player_id w.roster) ({ id := get_next_player_id w.roster, name := pyStrip name, elo := STARTING_ELO, wins := 0, losses := 0, is_playing := true } : Player))
        (get_next_player_id w.roster)
      refine (hperm.nodup_iff).mpr ?_
      rw [List.nodup_cons]
      exact ⟨hfresh hact, hI.2⟩
    · rw [if_neg hact]
      exact ⟨hro, hI.2⟩

theorem winv_delete (pid : Nat) (w : World) (hI : WInv w) :
    WInv (delete_player pid w) := by
  refine ⟨?_, hI.2⟩
  unfold delete_player
  exact hI.1.sublist (List.Sublist.map _ (List.filter_sublist w.roster))

theorem winv_toggle (pid : Nat) (w : World) (hI : WInv w) :
    WInv (toggle_player_status pid w) := by
  unfold toggle_player_status
  split
  · exact hI
  · rename_i p hf
    have hro : ((updateFirst (fun q => { q with is_playing := !q.is_playing }) pid
        w.roster).map (fun p => p.id)).Nodup := by
      rw [updateFirst_map_id (fun q => { q with is_playing := !q.is_playing })
        (fun q => rfl) pid]
      exact hI.1
    split
    · refine ⟨hro, ?_⟩
      show ((w.session.waiting_ids.filter (fun x => !(x == pid)))
          ++ matchIds w.session.active_matches).Nodup
      exact hI.2.sublist
        (List.Sublist.append (List.filter_sublist _) (List.Sublist.refl _))
    · exact ⟨hro, hI.2⟩

theorem start_branch_ids_perm (pm : List (Nat × Player)) (ids : List Nat) (tc : Int) :
    (sessionIds (fill_empty_tables
      { is_active := true
        players := pm
        waiting_ids := sortByEloDesc pm ids
        active_matches := []
        max_tables := tc })).Perm ids := by
  refine (fill_sessionIds_perm _).trans ?_
  show (sortByEloDesc pm ids ++ matchIds []).Perm ids
  rw [show matchIds [] = ([] : List Nat) from rfl, List.append_nil]
  exact sortByEloDesc_perm pm ids

theorem winv_start (tc : Int) (w : World) (hI : WInv w) :
    WInv (start_session tc w).1 := by
  unfold start_session
  by_cases hlen : (w.roster.filter (fun p => p.is_playing)).length < 2
  · rw [if_pos hlen]
    exact ⟨hI.1, hI.2⟩
  · rw [if_neg hlen]
    refine ⟨hI.1, ?_⟩
    have hids : (((w.roster.filter (fun p => p.is_playing)).map (fun p => p.id))).Nodup :=
      hI.1.sublist (List.Sublist.map _ (List.filter_sublist w.roster))
    have hperm := start_branch_ids_perm
      ((w.roster.filter (fun p => p.is_playing)).foldl (fun acc p => dictInsert acc p.id p) [])
      ((w.roster.filter (fun p => p.is_playing)).map (fun p => p.id)) tc
    exact (hperm.nodup_iff).mpr hids

theorem winv_end (w : World) (hI : WInv w) : WInv (end_session w) := by
  exact ⟨hI.1, List.nodup_nil⟩

theorem winv_step (R : Int → Int → Int → Int → Int × Int) (w : World) (op : Op)
    (hI : WInv w) (hok : okDisj w op = true) : WInv (step R w op) := by
  cases op with
  | addPlayer name =>
    refine winv_add name w hI ?_
    intro hact
    simp only [okDisj, hact, Bool.not_true, Bool.false_or, Bool.not_eq_true',
      decide_eq_false_iff_not] at hok
    exact hok
  | deletePlayer pid => exact winv_delete pid w hI
  | togglePlayer pid => exact winv_toggle pid w hI
  | startSession tc => exact winv_start tc w hI
  | endSession => exact winv_end w hI
  | recordResult a b ws ls =>
    show WInv (record_result R a b ws ls w).1
    cases hfw : w.roster.find? (fun p => p.id == a) with
    | none => rw [record_result_of_none_left R a b ws ls w hfw]; exact hI
    | some winner =>
      cases hfl : w.roster.find? (fun p => p.id == b) with
      | none => rw [record_result_of_none_right R a b ws ls w hfl]; exact hI
      | some loser =>
        rw [record_result_of_some R a b ws ls w winner loser hfw hfl]
        refine winv_record_apply _ _ a b w hI ?_
        intro hact
        simp only [okDisj, hact, Bool.not_true, Bool.false_or] at hok
        exact hok

/-! ### Running conditioned sequences preserves invariants -/

theorem okSeq_invariant (R : Int → Int → Int → Int → Int × Int)
    (P : World → Op → Bool) (I : World → Prop)
    (hstep : ∀ w op, I w → P w op = true → I (step R w op)) :
    ∀ ops w, I w → okSeq R P w ops = true → I (runOps R w ops) := by
  intro ops
  induction ops with
  | nil =>
    intro w hI _
    exact hI
  | cons op rest ih =>
    intro w hI hseq
    rw [okSeq, Bool.and_eq_true] at hseq
    exact ih (step R w op) (hstep w op hI hseq.1) hseq.2

/-! ### Preservation of the capacity bound -/

theorem cap_fill (t : SessionData) (h : CapSess t) : CapSess (fill_empty_tables t) :=
  fill_matches_len t h

theorem record_session_cap (nw nl : Int) (a b : Nat) (s : SessionData)
    (h : CapSess s) : CapSess (record_session nw nl a b s).1 := by
  unfold record_session
  split
  · split
    · exact h
    · split
      · exact h
      · apply cap_fill
        show ((s.active_matches.filter (fun m => !(isPairOf a b m))).length : Int)
          ≤ s.max_tables
        have h1 := List.length_filter_le (fun m => !(isPairOf a b m)) s.active_matches
        have h2 : ((s.active_matches.filter (fun m => !(isPairOf a b m))).length : Int)
            ≤ (s.active_matches.length : Int) := by exact_mod_cast h1
        exact h2.trans h
  · exact h

theorem cap_step (R : Int → Int → Int → Int → Int × Int) (w : World) (op : Op)
    (hI : CapSess w.session) (hok : okCap w op = true) : CapSess (step R w op).session := by
  cases op with
  | addPlayer name =>
    show CapSess (add_player name w).session
    unfold add_player
    by_cases hname : (pyStrip name == "") = true
    · rw [if_pos hname]
      exact hI
    · rw [if_neg hname]
      by_cases hact : w.session.is_active
      · rw [if_pos hact]
        exact cap_fill _ hI
      · rw [if_neg hact]
        exact hI
  | deletePlayer pid => exact hI
  | togglePlayer pid =>
    show CapSess (toggle_player_status pid w).session
    unfold toggle_player_status
    split
    · exact hI
    · split
      · exact hI
      · exact hI
  | startSession tc =>
    show CapSess (start_session tc w).1.session
    rw [okCap, Bool.and_eq_true, decide_eq_true_eq, decide_eq_true_eq] at hok
    unfold start_session
    rw [if_neg (by omega)]
    apply cap_fill
    show (([] : List TTMatch).length : Int) ≤ tc
    simpa using hok.1
  | endSession =>
    show (([] : List TTMatch).length : Int) ≤ (0 : Int)
    simp
  | recordResult a b ws ls =>
    show CapSess (record_result R a b ws ls w).1.session
    cases hfw : w.roster.find? (fun p => p.id == a) with
    | none => rw [record_result_of_none_left R a b ws ls w hfw]; exact hI
    | some winner =>
      cases hfl : w.roster.find? (fun p => p.id == b) with
      | none => rw [record_result_of_none_right R a b ws ls w hfl]; exact hI
      | some loser =>
        rw [record_result_of_some R a b ws ls w winner loser hfw hfl,
          record_apply_session]
        exact record_session_cap _ _ a b w.session hI

/-! ### Preservation of the descending queue order -/

theorem sorted_fill_of_sorted (t : SessionData) (h : SortedDesc t) :
    SortedDesc (fill_empty_tables t) :=
  List.Pairwise.sublist (fill_waiting_sublist t) h

theorem sorted_of_sort (t : SessionData) (l : List Nat)
    (h : t.waiting_ids = sortByEloDesc t.players l) : SortedDesc t := by
  unfold SortedDesc
  rw [h]
  exact sortByEloDesc_sorted t.players l

theorem eloKey_eraseKey_ne (ps : List (Nat × Player)) (pid x : Nat) (h : x ≠ pid) :
    eloKey (eraseKey ps pid) x = eloKey ps x := by
  unfold eloKey
  rw [dictFind_eraseKey_ne ps pid x h]

theorem sorted_toggle (s : SessionData) (pid : Nat) (h : SortedDesc s) :
    SortedDesc
      { s with
        players := eraseKey s.players pid,
        waiting_ids := s.waiting_ids.filter (fun x => !(x == pid)) } := by
  unfold SortedDesc
  have h1 : (s.waiting_ids.filter (fun x => !(x == pid))).Pairwise
      (fun a b => eloKey s.players b ≤ eloKey s.players a) :=
    List.Pairwise.sublist (List.filter_sublist _) h
  refine List.Pairwise.imp_of_mem ?_ h1
  intro a b ha hb hle
  have ha2 : a ≠ pid := by
    have := (List.mem_filter.mp ha).2
    simpa using this
  have hb2 : b ≠ pid := by
    have := (List.mem_filter.mp hb).2
    simpa using this
  show eloKey (eraseKey s.players pid) b ≤ eloKey (eraseKey s.players pid) a
  rw [eloKey_eraseKey_ne s.players pid a ha2, eloKey_eraseKey_ne s.players pid b hb2]
  exact hle

theorem any_of_find?_some (l : List Player) (pred : Player → Bool) (x : Player)
    (h : l.find? pred = some x) : l.any pred = true :=
  List.any_eq_true.mpr ⟨x, List.mem_of_find?_eq_some h, List.find?_some h⟩

theorem record_session_sorted (nw nl : Int) (a b : Nat) (s : SessionData)
    (hS : SortedDesc s)
    (hin : s.is_active = true →
      (s.players.any (fun e => e.1 == a) && s.players.any (fun e => e.1 == b)) = true) :
    SortedDesc (record_session nw nl a b s).1 := by
  unfold record_session
  split
  · rename_i hact
    split
    · rename_i hfw
      exfalso
      have h1 := hin hact
      rw [Bool.and_eq_true] at h1
      have h2 := dictFind_isSome_of_any s.players a h1.1
      rw [hfw] at h2
      simp at h2
    · rename_i pw hfw
      split
      · rename_i hfl
        exfalso
        have h1 := hin hact
        rw [Bool.and_eq_true] at h1
        have h2 := dictFind_isSome_of_any s.players b h1.2
        by_cases hab : b = a
        · subst hab
          rw [dictFind_dictInsert_self] at hfl
          cases hfl
        · rw [dictFind_dictInsert_ne s.players a b _ hab] at hfl
          rw [hfl] at h2
          simp at h2
      · rename_i pl hfl
        apply sorted_fill_of_sorted
        exact sorted_of_sort _ (s.waiting_ids ++ [a, b]) rfl
  · exact hS

theorem sorted_step (R : Int → Int → Int → Int → Int × Int) (w : World) (op : Op)
    (hS : SortedDesc w.session) (hok : okNoCrash w op = true) :
    SortedDesc (step R w op).session := by
  cases op with
  | addPlayer name =>
    show SortedDesc (add_player name w).session
    unfold add_player
    by_cases hname : (pyStrip name == "") = true
    · rw [if_pos hname]
      exact hS
    · rw [if_neg hname]
      by_cases hact : w.session.is_active
      · rw [if_pos hact]
        apply sorted_fill_of_sorted
        exact sorted_of_sort _ (w.session.waiting_ids ++ [get_next_player_id w.roster]) rfl
      · rw [if_neg hact]
        exact hS
  | deletePlayer pid => exact hS
  | togglePlayer pid =>
    show SortedDesc (toggle_player_status pid w).session
    unfold toggle_player_status
    split
    · exact hS
    · split
      · exact sorted_toggle w.session pid hS
      · exact hS
  | startSession tc =>
    show SortedDesc (start_session tc w).1.session
    unfold start_session
    by_cases hlen : (w.roster.filter (fun p => p.is_playing)).length < 2
    · rw [if_pos hlen]
      exact hS
    · rw [if_neg hlen]
      apply sorted_fill_of_sorted
      exact sorted_of_sort _ ((w.roster.filter (fun p => p.is_playing)).map (fun p => p.id)) rfl
  | endSession => exact List.Pairwise.nil
  | recordResult a b ws ls =>
    show SortedDesc (record_result R a b ws ls w).1.session
    cases hfw : w.roster.find? (fun p => p.id == a) with
    | none => rw [record_result_of_none_left R a b ws ls w hfw]; exact hS
    | some winner =>
      cases hfl : w.roster.find? (fun p => p.id == b) with
      | none => rw [record_result_of_none_right R a b ws ls w hfl]; exact hS
      | some loser =>
        rw [record_result_of_some R a b ws ls w winner loser hfw hfl,
          record_apply_session]
        refine record_session_sorted _ _ a b w.session hS ?_
        intro hact
        have hA := any_of_find?_some w.roster _ winner hfw
        have hB := any_of_find?_some w.roster _ loser hfl
        simp only [okNoCrash, hact, hA, hB, Bool.true_and, Bool.and_true,
          Bool.not_eq_true', Bool.not_eq_false] at hok
        simpa using hok

/-! ### Last supporting lemmas before the claim theorems -/

theorem runOps_append (R : Int → Int → Int → Int → Int × Int) (w : World)
    (l1 l2 : List Op) : runOps R w (l1 ++ l2) = runOps R (runOps R w l1) l2 := by
  induction l1 generalizing w with
  | nil => rfl
  | cons op rest ih =>
    rw [List.cons_append, runOps, runOps]
    exact ih (step R w op)

theorem fill_matches_def (s : SessionData) :
    (fill_empty_tables s).active_matches
      = (fill_aux s.max_tables s.waiting_ids s.active_matches).2 := rfl

theorem fill_waiting_def (s : SessionData) :
    (fill_empty_tables s).waiting_ids
      = (fill_aux s.max_tables s.waiting_ids s.active_matches).1 := rfl

theorem fill_aux_pair (tc : Int) (htc : 1 ≤ tc) (x y : Nat) :
    fill_aux tc [x, y] [] = ([], [mkTTMatch x y]) := by
  rw [fill_aux, if_pos (by simp only [List.length_nil, Nat.cast_zero]; omega)]
  rfl

theorem record_session_no_match (nw nl : Int) (a b : Nat) (s : SessionData)
    (hact : s.is_active = true) (hab : b ≠ a) (pa pb : Player)
    (hpa : dictFind s.players a = some pa) (hpb : dictFind s.players b = some pb)
    (hnomatch : s.active_matches.any (isPairOf a b) = false) :
    (record_session nw nl a b s).2 = RecordOutcome.ok
    ∧ ∀ m ∈ s.active_matches, m ∈ (record_session nw nl a b s).1.active_matches := by
  have hpb2 : dictFind (dictInsert s.players a (bumpWinner nw pa)) b = some pb := by
    rw [dictFind_dictInsert_ne s.players a b (bumpWinner nw pa) hab]
    exact hpb
  have hfilter : s.active_matches.filter (fun m => !(isPairOf a b m)) = s.active_matches := by
    refine List.filter_eq_self.mpr ?_
    intro m hm
    have h1 : isPairOf a b m = false := by
      by_contra hcon
      have h2 : isPairOf a b m = true := by
        revert hcon
        cases isPairOf a b m <;> simp
      have h3 := List.any_eq_true.mpr ⟨m, hm, h2⟩
      rw [hnomatch] at h3
      cases h3
    rw [h1]
    rfl
  unfold record_session
  rw [if_pos hact]
  split
  · rename_i heq
    rw [hpa] at heq
    cases heq
  · rename_i pw heq
    rw [hpa] at heq
    injection heq with heq2
    subst heq2
    split
    · rename_i heq3
      rw [hpb2] at heq3
      cases heq3
    · rename_i pl heq3
      rw [hpb2] at heq3
      injection heq3 with heq4
      subst heq4
      refine ⟨rfl, ?_⟩
      intro m hm
      apply fill_matches_mem
      show m ∈ s.active_matches.filter (fun m => !(isPairOf a b m))
      rw [hfilter]
      exact hm

/-! ### Claim theorems -/

/-- Claim C1, counterexample. The claim states that after any fillTables run
(in particular after recordResult) no waiting id occupies an active match.
On the reachable state W5 (players 1,2,3, one table, match 1-2 active, 3
waiting), recording a result for the pair (1,3) - which has no active match -
re-queues both ids while the match 1-2 stays active: afterwards id 1 is in
the waiting queue and in an active match at the same time. -/
theorem queue_disjoint_counterexample :
    1 ∈ (runOps eloEngine initWorld (preOpsA ++ [Op.recordResult 1 3 2 1])).session.waiting_ids
    ∧ 1 ∈ matchIds (runOps eloEngine initWorld
        (preOpsA ++ [Op.recordResult 1 3 2 1])).session.active_matches := by
  have h0 : runOps eloEngine initWorld (preOpsA ++ [Op.recordResult 1 3 2 1])
      = (record_result eloEngine 1 3 2 1 W5).1 := by
    rw [runOps_append, show runOps eloEngine initWorld preOpsA = W5 from rfl]
    rfl
  have h1 : record_result eloEngine 1 3 2 1 W5
      = record_apply (eloEngine 1000 1000 2 1).1 (eloEngine 1000 1000 2 1).2 1 3 W5 := rfl
  rw [h0, h1, eloEngine_equal_21]
  constructor
  · decide
  · decide

/-- Claim C1, amended. For every request sequence from the initial state in
which every result is recorded for a pair that currently has an active match
and no mid-session player admission reuses the id of a current session
member, the waiting queue after the run contains no id seated in any active
match (the ids holding session seats are in fact pairwise distinct). -/
theorem queue_match_disjoint (ops : List Op)
    (h : okSeq eloEngine okDisj initWorld ops = true) :
    ∀ pid, pid ∈ (runOps eloEngine initWorld ops).session.waiting_ids →
      pid ∉ matchIds (runOps eloEngine initWorld ops).session.active_matches := by
  have hinv := okSeq_invariant eloEngine okDisj WInv (winv_step eloEngine) ops initWorld
    ⟨List.nodup_nil, List.nodup_nil⟩ h
  intro pid h1 h2
  exact (List.nodup_append.mp hinv.2).2.2 h1 h2

/-- Witness for the amended claim C1 at a concrete conditioned run. -/
theorem queue_match_disjoint_witness :
    okSeq eloEngine okDisj initWorld preOpsA = true
    ∧ 3 ∈ (runOps eloEngine initWorld preOpsA).session.waiting_ids
    ∧ 3 ∉ matchIds (runOps eloEngine initWorld preOpsA).session.active_matches :=
  ⟨by decide, by decide, queue_match_disjoint preOpsA (by decide) 3 (by decide)⟩

/-- Claim C2, counterexample. Starting a session with two players, toggling
both inactive mid-session (the match stays on the table), and then asking to
restart with tableCount 0 is rejected with InsufficientPlayers - but the
rejected start still overwrites max_tables, leaving 1 active match against a
capacity of 0. -/
theorem capacity_counterexample :
    (runOps eloEngine initWorld capOps).session.active_matches.length = 1
    ∧ (runOps eloEngine initWorld capOps).session.max_tables = 0
    ∧ ¬ CapSess (runOps eloEngine initWorld capOps).session := by
  refine ⟨by decide, by decide, ?_⟩
  unfold CapSess
  decide

/-- Claim C2, amended. For every request sequence from the initial state in
which every startSession request carries a non-negative tableCount and is
issued with at least two active roster players (so it is never rejected),
the number of active matches never exceeds max_tables. -/
theorem capacity_invariant_holds (ops : List Op)
    (h : okSeq eloEngine okCap initWorld ops = true) :
    ((runOps eloEngine initWorld ops).session.active_matches.length : Int)
      ≤ (runOps eloEngine initWorld ops).session.max_tables :=
  okSeq_invariant eloEngine okCap (fun w => CapSess w.session) (cap_step eloEngine)
    ops initWorld (by unfold CapSess; decide) h

/-- Witness for the amended claim C2 at a concrete conditioned run. -/
theorem capacity_invariant_holds_witness :
    okSeq eloEngine okCap initWorld preOpsA = true
    ∧ ((runOps eloEngine initWorld preOpsA).session.active_matches.length : Int)
      ≤ (runOps eloEngine initWorld preOpsA).session.max_tables :=
  ⟨by decide, capacity_invariant_holds preOpsA (by decide)⟩

/-- Claim C3, counterexample. The claim calls an id unknown when it is absent
from sessionPlayers while the session is active, and asserts such a call
fails with PlayerNotFound and mutates nothing. On the reachable state WC the
loser id 1 has been deactivated (absent from the session players, present on
the roster): recording 5 beats 1 does not answer PlayerNotFound - the roster
ratings are rewritten and the handler then dies in a KeyError on the session
cache. -/
theorem unknown_player_counterexample :
    runOps eloEngine initWorld preOpsC = WC
    ∧ WC.session.is_active = true
    ∧ dictFind WC.session.players 1 = none
    ∧ (record_result eloEngine 5 1 2 1 WC).2 ≠ RecordOutcome.playerNotFound
    ∧ (record_result eloEngine 5 1 2 1 WC).1.roster ≠ WC.roster := by
  have h1 : record_result eloEngine 5 1 2 1 WC
      = record_apply (eloEngine 1000 1000 2 1).1 (eloEngine 1000 1000 2 1).2 5 1 WC := rfl
  refine ⟨rfl, rfl, rfl, ?_, ?_⟩
  · rw [h1, eloEngine_equal_21]
    decide
  · rw [h1, eloEngine_equal_21]
    decide

/-- Claim C3, amended. An id is unknown exactly when the persisted roster
does not resolve it: then recordResult answers PlayerNotFound and performs
no mutation at all (the returned world is the input world). -/
theorem unknown_player_no_mutation (w : World) (a b : Nat) (ws ls : Int)
    (h : w.roster.find? (fun p => p.id == a) = none
      ∨ w.roster.find? (fun p => p.id == b) = none) :
    record_result eloEngine a b ws ls w = (w, RecordOutcome.playerNotFound) := by
  rcases h with h | h
  · exact record_result_of_none_left eloEngine a b ws ls w h
  · exact record_result_of_none_right eloEngine a b ws ls w h

/-- Witness for the amended claim C3 at a concrete input. -/
theorem unknown_player_no_mutation_witness :
    W1A.roster.find? (fun p => p.id == 7) = none
    ∧ record_result eloEngine 7 9 2 0 W1A = (W1A, RecordOutcome.playerNotFound) :=
  ⟨by decide, unknown_player_no_mutation W1A 7 9 2 0 (Or.inl (by decide))⟩

/-- Claim C4: the rating update first computes K = 32 times 1.5 exactly for a
2-0 shutout (else times 1.0), the logistic expected win probability, and
delta = K * (1 - expectedWinProb); the returned ratings are the rounded
(round half to even, the single rule used for both sides) integers
winnerRating + delta and loserRating - delta; in particular equal ratings
1000 with a 2-0 shutout give (1024, 976). -/
theorem rating_update_formula :
    eloEngine 1000 1000 2 0 = (1024, 976)
    ∧ ∀ wr lr ws ls : Int,
        eloEngine wr lr ws ls
          = (pyRound ((wr : ℝ) + (32 * (if ws = 2 ∧ ls = 0 then 1.5 else 1.0))
                * (1 - 1 / (1 + (10 : ℝ) ^ (((lr : ℝ) - (wr : ℝ)) / 400)))),
             pyRound ((lr : ℝ) - (32 * (if ws = 2 ∧ ls = 0 then 1.5 else 1.0))
                * (1 - 1 / (1 + (10 : ℝ) ^ (((lr : ℝ) - (wr : ℝ)) / 400))))) :=
  ⟨eloEngine_equal_20, fun _ _ _ _ => rfl⟩

/-- Claim C5, counterexample. The claim says a result for a pair with no
active match makes the caller receive a MatchNotFound error and that no
scheduling mutation beyond the skipped removal is attempted. On the
reachable state W5 the pair (1,3) has no active match, yet the call succeeds
(ok, an ordinary snapshot response - the code has no MatchNotFound error at
all) and the waiting queue is mutated from [3] to [1,3,3]: the in-match id 1
and a duplicate of 3 are enqueued. -/
theorem match_not_found_counterexample :
    runOps eloEngine initWorld preOpsA = W5
    ∧ W5.session.active_matches.any (isPairOf 1 3) = false
    ∧ (record_result eloEngine 1 3 2 1 W5).2 = RecordOutcome.ok
    ∧ W5.session.waiting_ids = [3]
    ∧ (record_result eloEngine 1 3 2 1 W5).1.session.waiting_ids = [1, 3, 3] := by
  have h1 : record_result eloEngine 1 3 2 1 W5
      = record_apply (eloEngine 1000 1000 2 1).1 (eloEngine 1000 1000 2 1).2 1 3 W5 := rfl
  refine ⟨rfl, rfl, ?_, rfl, ?_⟩
  · rw [h1, eloEngine_equal_21]
    decide
  · rw [h1, eloEngine_equal_21]
    decide

/-- Claim C5, amended. Recording a result for two roster-known, session-known
distinct players whose pair has no active match is treated as a success (no
MatchNotFound error exists in the code): the rating update is still applied
to the roster, and no match is removed - every previously active match is
still active afterwards (the queue, however, is re-extended and re-sorted). -/
theorem match_not_found_behavior (w : World) (a b : Nat) (ws ls : Int)
    (winner loser pa pb : Player)
    (hfw : w.roster.find? (fun p => p.id == a) = some winner)
    (hfl : w.roster.find? (fun p => p.id == b) = some loser)
    (hact : w.session.is_active = true)
    (hab : b ≠ a)
    (hpa : dictFind w.session.players a = some pa)
    (hpb : dictFind w.session.players b = some pb)
    (hnomatch : w.session.active_matches.any (isPairOf a b) = false) :
    (record_result eloEngine a b ws ls w).2 = RecordOutcome.ok
    ∧ (record_result eloEngine a b ws ls w).1.roster
        = updateFirst (fun p => { p with elo := (eloEngine winner.elo loser.elo ws ls).2, losses := p.losses + 1 }) b
            (updateFirst (fun p => { p with elo := (eloEngine winner.elo loser.elo ws ls).1, wins := p.wins + 1 }) a w.roster)
    ∧ ∀ m ∈ w.session.active_matches,
        m ∈ (record_result eloEngine a b ws ls w).1.session.active_matches := by
  rw [record_result_of_some eloEngine a b ws ls w winner loser hfw hfl]
  have h := record_session_no_match (eloEngine winner.elo loser.elo ws ls).1
    (eloEngine winner.elo loser.elo ws ls).2 a b w.session hact hab pa pb hpa hpb hnomatch
  exact ⟨h.1, rfl, h.2⟩

/-- Witness for the amended claim C5 at a concrete input. -/
theorem match_not_found_behavior_witness :
    (record_result eloEngine 1 3 2 1 W5).2 = RecordOutcome.ok
    ∧ (record_result eloEngine 1 3 2 1 W5).1.roster
        = updateFirst (fun p => { p with elo := (eloEngine pA.elo pC.elo 2 1).2, losses := p.losses + 1 }) 3
            (updateFirst (fun p => { p with elo := (eloEngine pA.elo pC.elo 2 1).1, wins := p.wins + 1 }) 1 W5.roster)
    ∧ ∀ m ∈ W5.session.active_matches,
        m ∈ (record_result eloEngine 1 3 2 1 W5).1.session.active_matches :=
  match_not_found_behavior W5 1 3 2 1 pA pC pA pC (by decide) (by decide) (by decide)
    (by decide) (by decide) (by decide) (by decide)

/-- Claim C6, counterexample. On the reachable one-player world W1A (old
max_tables 0), startSession with tableCount 3 fails with InsufficientPlayers
but the session max_tables has been overwritten to 3: the claim that every
session field is unchanged is false. -/
theorem insufficient_players_counterexample :
    runOps eloEngine initWorld [Op.addPlayer "a"] = W1A
    ∧ (W1A.roster.filter (fun p => p.is_playing)).length = 1
    ∧ W1A.session.max_tables = 0
    ∧ (start_session 3 W1A).2 = false
    ∧ (start_session 3 W1A).1.session.max_tables = 3 :=
  ⟨rfl, by decide, rfl, by decide, by decide⟩

/-- Claim C6, amended. startSession with fewer than 2 active players fails
and changes nothing except max_tables, which is overwritten with the
requested tableCount before the validation runs. -/
theorem insufficient_players_only_tables_change (w : World) (tc : Int)
    (h : (w.roster.filter (fun p => p.is_playing)).length < 2) :
    start_session tc w = ({ w with session := { w.session with max_tables := tc } }, false) := by
  unfold start_session
  rw [if_pos h]

/-- Witness for the amended claim C6 at a concrete input. -/
theorem insufficient_players_only_tables_change_witness :
    start_session 3 W1A = ({ W1A with session := { W1A.session with max_tables := 3 } }, false) :=
  insufficient_players_only_tables_change W1A 3 (by decide)

/-- Claim C7, counterexample. The claim says the waiting queue is sorted by
descending rating after every operation. On the reachable state WC
(player 1 deactivated while seated in the match, ratings all 1000, queue
[3,4,5]), recording 5 beats 1 updates the session rating of 5 to 1016 and
then crashes in a KeyError on the missing session entry of 1, before the
queue re-sort: the state after the request has queue [3,4,5] with ratings
1000, 1000, 1016 - not sorted descending. -/
theorem queue_sorted_counterexample :
    (runOps eloEngine initWorld (preOpsC ++ [Op.recordResult 5 1 2 1])).session.waiting_ids
      = [3, 4, 5]
    ∧ ¬ SortedDesc (runOps eloEngine initWorld
        (preOpsC ++ [Op.recordResult 5 1 2 1])).session := by
  have h0 : runOps eloEngine initWorld (preOpsC ++ [Op.recordResult 5 1 2 1])
      = (record_result eloEngine 5 1 2 1 WC).1 := by
    rw [runOps_append, show runOps eloEngine initWorld preOpsC = WC from rfl]
    rfl
  have h1 : record_result eloEngine 5 1 2 1 WC
      = record_apply (eloEngine 1000 1000 2 1).1 (eloEngine 1000 1000 2 1).2 5 1 WC := rfl
  rw [h0, h1, eloEngine_equal_21]
  constructor
  · decide
  · unfold SortedDesc
    decide

/-- Claim C7, amended. For every request sequence from the initial state in
which no recordResult call crashes (every result recorded while a session is
active, for two roster-resolved ids, finds both ids in the session players),
the waiting queue after the run is sorted by non-increasing current rating;
each re-sort is stable, so ties keep their prior relative order. -/
theorem queue_sorted_desc (ops : List Op)
    (h : okSeq eloEngine okNoCrash initWorld ops = true) :
    SortedDesc (runOps eloEngine initWorld ops).session :=
  okSeq_invariant eloEngine okNoCrash (fun w => SortedDesc w.session)
    (sorted_step eloEngine) ops initWorld List.Pairwise.nil h

/-- Witness for the amended claim C7 at a concrete conditioned run. -/
theorem queue_sorted_desc_witness :
    okSeq eloEngine okNoCrash initWorld preOpsC = true
    ∧ SortedDesc (runOps eloEngine initWorld preOpsC).session :=
  ⟨by decide, queue_sorted_desc preOpsC (by decide)⟩

/-- Claim C8: for every pair of integer input ratings and every score pair,
the K factor is positive, the pre-rounding delta is strictly positive, and
the rounded update is monotone: the winner never loses rating points and the
loser never gains any. -/
theorem rating_monotone (wr lr ws ls : Int) :
    0 < k_factor ws ls
    ∧ 0 < rating_change (wr : ℝ) (lr : ℝ) ws ls
    ∧ wr ≤ (eloEngine wr lr ws ls).1
    ∧ (eloEngine wr lr ws ls).2 ≤ lr :=
  ⟨k_factor_pos ws ls, rating_change_pos (wr : ℝ) (lr : ℝ) ws ls,
    eloEngine_winner_ge wr lr ws ls, eloEngine_loser_le wr lr ws ls⟩

/-- Claim C9, counterexample. With exactly 2 active players, startSession
with tableCount 0 succeeds but produces 0 matches and 2 waiting players, not
1 match and 0 waiting as claimed. -/
theorem start_session_counterexample :
    runOps eloEngine initWorld [Op.addPlayer "a", Op.addPlayer "b"] = W2
    ∧ (W2.roster.filter (fun p => p.is_playing)).length = 2
    ∧ (start_session 0 W2).2 = true
    ∧ (start_session 0 W2).1.session.active_matches = []
    ∧ (start_session 0 W2).1.session.waiting_ids.length = 2 :=
  ⟨rfl, by decide, by decide, by decide, by decide⟩

theorem start_fill_two (pm : List (Nat × Player)) (l : List Nat) (tc : Int)
    (htc : 1 ≤ tc) (hl : l.length = 2) :
    (fill_empty_tables
      { is_active := true
        players := pm
        waiting_ids := sortByEloDesc pm l
        active_matches := []
        max_tables := tc }).active_matches.length = 1
    ∧ (fill_empty_tables
      { is_active := true
        players := pm
        waiting_ids := sortByEloDesc pm l
        active_matches := []
        max_tables := tc }).waiting_ids = [] := by
  have hlen2 : (sortByEloDesc pm l).length = 2 := by
    rw [(sortByEloDesc_perm pm l).length_eq]
    exact hl
  obtain ⟨x, y, hxy⟩ := List.length_eq_two.mp hlen2
  constructor
  · rw [fill_matches_def]
    show (fill_aux tc (sortByEloDesc pm l) []).2.length = 1
    rw [hxy, fill_aux_pair tc htc x y]
    rfl
  · rw [fill_waiting_def]
    show (fill_aux tc (sortByEloDesc pm l) []).1 = []
    rw [hxy, fill_aux_pair tc htc x y]

/-- Claim C9, amended. startSession with exactly 1 active player fails with
InsufficientPlayers; with exactly 2 active players and a requested
tableCount of at least 1 it succeeds and produces exactly 1 active match
and an empty waiting queue. -/
theorem start_session_small_rosters (w : World) (tc : Int) :
    ((w.roster.filter (fun p => p.is_playing)).length = 1 → (start_session tc w).2 = false)
    ∧ (1 ≤ tc → (w.roster.filter (fun p => p.is_playing)).length = 2 →
        (start_session tc w).2 = true
        ∧ (start_session tc w).1.session.active_matches.length = 1
        ∧ (start_session tc w).1.session.waiting_ids = []) := by
  constructor
  · intro h1
    unfold start_session
    rw [if_pos (by omega)]
  · intro htc h2
    unfold start_session
    rw [if_neg (by omega)]
    have hids : ((w.roster.filter (fun p => p.is_playing)).map (fun p => p.id)).length = 2 := by
      rw [List.length_map]
      exact h2
    have h3 := start_fill_two
      ((w.roster.filter (fun p => p.is_playing)).foldl (fun acc p => dictInsert acc p.id p) [])
      ((w.roster.filter (fun p => p.is_playing)).map (fun p => p.id)) tc htc hids
    exact ⟨rfl, h3.1, h3.2⟩

/-- Witness for the amended claim C9 at concrete inputs (1 and 2 players). -/
theorem start_session_small_rosters_witness :
    (start_session 1 W1A).2 = false
    ∧ ((start_session 1 W2).2 = true
      ∧ (start_session 1 W2).1.session.active_matches.length = 1
      ∧ (start_session 1 W2).1.session.waiting_ids = []) :=
  ⟨(start_session_small_rosters W1A 1).1 (by decide),
   (start_session_small_rosters W2 1).2 (by decide) (by decide)⟩

/-- Claim C10: while a session is active, toggling a player who occupies an
active match to inactive removes the id from the session players and from
the waiting queue but leaves the match in activeMatches, and the following
snapshot contains that match with a null player1 or player2. -/
theorem toggle_in_match_behavior (w : World) (pid : Nat) (p : Player) (m : TTMatch)
    (hact : w.session.is_active = true)
    (hfind : w.roster.find? (fun q => q.id == pid) = some p)
    (hplay : p.is_playing = true)
    (hm : m ∈ w.session.active_matches)
    (hpid : m.player1Id = pid ∨ m.player2Id = pid) :
    dictFind (toggle_player_status pid w).session.players pid = none
    ∧ pid ∉ (toggle_player_status pid w).session.waiting_ids
    ∧ m ∈ (toggle_player_status pid w).session.active_matches
    ∧ ∃ mv ∈ (get_session_state (toggle_player_status pid w).session).activeMatches,
        mv.id = m.id ∧ (mv.player1 = none ∨ mv.player2 = none) := by
  have hcond : (w.session.is_active && p.is_playing) = true := by
    rw [hact, hplay]
    rfl
  unfold toggle_player_status
  split
  · rename_i heq
    rw [hfind] at heq
    cases heq
  · rename_i p2 heq
    rw [hfind] at heq
    injection heq with h2
    subst h2
    rw [if_pos hcond]
    refine ⟨dictFind_eraseKey_self _ _, ?_, hm, ?_⟩
    · intro hmem
      have h1 := (List.mem_filter.mp hmem).2
      simp at h1
    · refine ⟨_, List.mem_map.mpr ⟨m, hm, rfl⟩, rfl, ?_⟩
      rcases hpid with h | h
      · refine Or.inl ?_
        show dictFind (eraseKey w.session.players pid) m.player1Id = none
        rw [h]
        exact dictFind_eraseKey_self _ _
      · refine Or.inr ?_
        show dictFind (eraseKey w.session.players pid) m.player2Id = none
        rw [h]
        exact dictFind_eraseKey_self _ _

/-- Witness for claim C10 at a concrete input. -/
theorem toggle_in_match_behavior_witness :
    dictFind (toggle_player_status 1 W2S).session.players 1 = none
    ∧ 1 ∉ (toggle_player_status 1 W2S).session.waiting_ids
    ∧ mkTTMatch 1 2 ∈ (toggle_player_status 1 W2S).session.active_matches
    ∧ ∃ mv ∈ (get_session_state (toggle_player_status 1 W2S).session).activeMatches,
        mv.id = (mkTTMatch 1 2).id ∧ (mv.player1 = none ∨ mv.player2 = none) :=
  toggle_in_match_behavior W2S 1 pA (mkTTMatch 1 2) (by decide) (by decide) (by decide)
    (by decide) (Or.inl (by decide))

end TTMatcher
